import Mathlib

/-!
Local state backend (`state/local.go`).

A shallow embedding of the `Local` backend of terraboard and the properties of
its constructor functions, its discovery walk (`GetStates`), its retrieval
(`GetState`) and its version listing (`GetVersions`).

Modelling conventions.

* A Go `error` value is an `Error`; a Go result of type `error` is an
  `Option Error`, `none` standing for `nil`.
* A Go pointer result such as `*Local` is an `Option`, `none` standing for `nil`.
* A Go slice is a `List`; the `nil` slice and the empty slice are both `[]`
  (Go code cannot tell them apart through `len` or `range`).
* A function returning `(T, error)` returns a pair, so that both components can
  be spoken about independently.
* Logging calls have no effect on results and are left out.
* Functions of the Go standard library and of the state-file decoder are not part
  of this repository. The file-system ones are fields of `Runtime`; `filepath.Base`
  is written out for the Unix path separator.
-/

set_option autoImplicit false

namespace State

/-! ## Data model -/

/-- A Go `error` value, identified by its message. -/
structure Error where
  msg : String
  deriving DecidableEq, Repr

/-- Go `fmt.Errorf` with a format that has no verb. -/
def Errorf0 (text : String) : Error := ⟨text⟩

/-- Go `fmt.Errorf` with a format made of a fixed text followed by one `%s` verb. -/
def Errorf1 (text : String) (arg : String) : Error := ⟨text ++ arg⟩

/-- The part of `fs.DirEntry` the backend looks at. -/
structure DirEntry where
  IsDir : Bool
  deriving DecidableEq, Repr

/-- One call of an `fs.WalkDirFunc`: the three arguments the walker hands over.
The entry is present on every call; the callback of `GetStates` looks at it only
when `err` is nil, where the contract of `fs.WalkDirFunc` makes it non-nil. -/
structure Visit where
  path : String
  info : DirEntry
  err : Option Error
  deriving DecidableEq, Repr

/-- The behaviour of a walker towards its callback: it either returns a result,
or calls the callback on an entry and goes on according to what the callback
returned. Every terminating walker that only interacts with the callback by
calling it is such a tree. -/
inductive Walk where
  | done (result : Option Error) : Walk
  | visit (v : Visit) (next : Option Error → Walk) : Walk

/-- Go `LocalCollector = func(string, fs.WalkDirFunc) error`: for each root, the
behaviour of the walker towards the callback it is given. -/
abbrev LocalCollector := String → Walk

/-- Go `LocalMatcher = func(string, string) (bool, error)`. -/
abbrev LocalMatcher := String → String → Bool × Option Error

/-- Go `Local` struct. -/
structure Local where
  path : String
  pattern : String
  walkDirFn : LocalCollector
  matchFn : LocalMatcher

/-- The fields of `config.LocalConfig` read by the backend. -/
structure LocalConfig where
  StatePath : String
  StateFile : String
  deriving DecidableEq, Repr

/-- The field of `config.Config` read by the backend. -/
structure Config where
  Local : List LocalConfig
  deriving DecidableEq, Repr

/-- An open file, as returned by `os.Open`. -/
structure File where
  content : String
  deriving DecidableEq, Repr

/-- The decoded document `statefile.File`, not inspected by the backend. -/
structure StateFile where
  doc : String
  deriving DecidableEq, Repr

/-- The part of `fs.FileInfo` that `GetVersions` reads; the time is a number of
nanoseconds. -/
structure FileInfo where
  ModTime : Int
  deriving DecidableEq, Repr

/-- Go `Version` struct of package `state`. -/
structure Version where
  ID : String
  LastModified : Int
  deriving DecidableEq, Repr

/-- The standard-library and decoder functions the backend calls. -/
structure Runtime where
  /-- Go `filepath.WalkDir`. -/
  WalkDir : LocalCollector
  /-- Go `filepath.Match`. -/
  Match : LocalMatcher
  /-- Go `os.Open`. -/
  Open : String → Except Error File
  /-- Go `statefile.Read` on a buffered reader of the file. -/
  Read : File → Option StateFile × Option Error
  /-- Go `os.Stat`. -/
  Stat : String → Except Error FileInfo

/-! ## Standard-library helpers -/

/-- Go `filepath.Base` for the separator `/`: the last element of the path, after
trailing separators are dropped; `.` for the empty path and `/` for a path made
of separators only. -/
def Base (path : String) : String :=
  if path = "" then "."
  else
    let stripped := (path.data.reverse.dropWhile (fun c => c == '/')).reverse
    let last := (stripped.reverse.takeWhile (fun c => c != '/')).reverse
    if last = [] then "/" else String.mk last

/-- Run a walker against a callback that threads a state of type `σ`. -/
def Walk.run {σ : Type} (fn : Visit → σ → σ × Option Error) : Walk → σ → σ × Option Error
  | .done result, s => (s, result)
  | .visit v next, s => Walk.run fn (next (fn v s).2) (fn v s).1

/-- The entries a walker hands to the callback during a run, in order. -/
def Walk.visited {σ : Type} (fn : Visit → σ → σ × Option Error) : Walk → σ → List Visit
  | .done _, _ => []
  | .visit v next, s => v :: Walk.visited fn (next (fn v s).2) (fn v s).1

/-- The walker that hands the given entries to the callback in order, returns the
first non-nil result of the callback, and returns `fin` when no call failed. -/
def walkList (fin : Option Error) : List Visit → Walk
  | [] => .done fin
  | v :: rest => .visit v fun r =>
      match r with
      | some e => .done (some e)
      | none => walkList fin rest

/-- What a walker returns when every call of the callback returns nil: the
error the walker reports of its own accord, nil when it reports none. -/
def Walk.quietResult : Walk → Option Error
  | .done result => result
  | .visit _ next => Walk.quietResult (next none)

/-! ## The backend -/

/-- Go `NewLocal`. -/
def NewLocal (rt : Runtime) (c : LocalConfig) : Option Local × Option Error :=
  if c.StatePath = "" then
    (none, some (Errorf0 "state path cannot be empty"))
  else if c.StateFile = "" then
    (none, some (Errorf0 "state file cannot be empty"))
  else
    (some { path := c.StatePath, pattern := c.StateFile,
            walkDirFn := rt.WalkDir, matchFn := rt.Match }, none)

/-- The loop of `NewLocalCollection` over the remaining configs, with the
instances built so far. -/
def NewLocalCollection.loop (rt : Runtime) :
    List LocalConfig → List (Option Local) → List (Option Local) × Option Error
  | [], instances => (instances, none)
  | config :: rest, instances =>
    match NewLocal rt config with
    | (_, some err) => ([], some err)
    | (inst, none) => NewLocalCollection.loop rt rest (instances ++ [inst])

/-- Go `NewLocalCollection`. -/
def NewLocalCollection (rt : Runtime) (c : Config) : List (Option Local) × Option Error :=
  NewLocalCollection.loop rt c.Local []

/-- The callback `GetStates` gives to the walker; `states` is the captured
slice. -/
def GetStates.walkFn (o : Local) (v : Visit) (states : List String) :
    List String × Option Error :=
  match v.err with
  | some err => (states, some err)
  | none =>
    if !v.info.IsDir then
      match o.matchFn o.pattern (Base v.path) with
      | (_, some err) => (states, some err)
      | (matched, none) =>
        if matched then (states ++ [v.path], none) else (states, none)
    else (states, none)

/-- Go `Local.GetStates`. -/
def GetStates (o : Local) : List String × Option Error :=
  Walk.run (GetStates.walkFn o) (o.walkDirFn o.path) []

/-- The entries the walker of `o` hands to the callback during `GetStates`. -/
def GetStates.visited (o : Local) : List Visit :=
  Walk.visited (GetStates.walkFn o) (o.walkDirFn o.path) []

/-- Whether the callback appends the entry: reported without error, not a
directory, and matched without a matcher error. -/
def GetStates.keeps (o : Local) (v : Visit) : Bool :=
  v.err.isNone && !v.info.IsDir &&
    (o.matchFn o.pattern (Base v.path)).2.isNone && (o.matchFn o.pattern (Base v.path)).1

/-- Go `Local.GetState`. -/
def GetState (rt : Runtime) (_o : Local) (state : String) (version : String) :
    Option StateFile × Option Error :=
  match rt.Open state with
  | .error _ => (none, some (Errorf1 "unable to read the statefile " state))
  | .ok fh =>
    match (rt.Read fh).1 with
    | none => (none, some (Errorf1 "unable to parse the statefile version " version))
    | some sf => (some sf, none)

/-- Go `Local.GetVersions`. -/
def GetVersions (rt : Runtime) (_o : Local) (state : String) :
    List Version × Option Error :=
  match rt.Stat state with
  | .error _ => ([], some (Errorf1 "unable to read the statefile " state))
  | .ok info => ([] ++ [{ ID := state, LastModified := info.ModTime }], none)

/-- The lock record `LockInfo` of package `state`; the backend never builds
one. -/
structure LockInfo where
  ID : String
  deriving DecidableEq, Repr

/-- Go `Local.GetLocks`; the map is the list of its key-value pairs, and
`make(map[string]LockInfo)` is the empty list. -/
def GetLocks (_o : Local) : List (String × LockInfo) × Option Error :=
  ([], none)

/-- The callback of `GetStates` with the calls to the matcher made visible: the
second component of the state collects the arguments of every `o.matchFn` call,
in order. -/
def GetStates.walkFnTraced (o : Local) (v : Visit)
    (st : List String × List (String × String)) :
    (List String × List (String × String)) × Option Error :=
  match v.err with
  | some err => (st, some err)
  | none =>
    if !v.info.IsDir then
      match o.matchFn o.pattern (Base v.path) with
      | (_, some err) => ((st.1, st.2 ++ [(o.pattern, Base v.path)]), some err)
      | (matched, none) =>
        if matched then ((st.1 ++ [v.path], st.2 ++ [(o.pattern, Base v.path)]), none)
        else ((st.1, st.2 ++ [(o.pattern, Base v.path)]), none)
    else (st, none)

/-- A call of one of the four methods of a `Local` instance. -/
inductive Call where
  | getLocks : Call
  | getStates : Call
  | getState (state version : String) : Call
  | getVersions (state : String) : Call
  deriving DecidableEq, Repr

/-- What a method call returns. -/
inductive Reply where
  | locks (r : List (String × LockInfo) × Option Error) : Reply
  | states (r : List String × Option Error) : Reply
  | state (r : Option StateFile × Option Error) : Reply
  | versions (r : List Version × Option Error) : Reply
  deriving DecidableEq, Repr

/-- A method call on the instance `o`: the instance as the method leaves it, and
what the method returns. No method of `Local` assigns to a field of its receiver
and the package keeps no variable of its own, so the instance is handed back as
it was; the slice `states` of `GetStates` is a local variable, nil at the start
of every call. -/
def Local.call (rt : Runtime) (o : Local) : Call → Local × Reply
  | .getLocks => (o, .locks (GetLocks o))
  | .getStates => (o, .states (GetStates o))
  | .getState state version => (o, .state (GetState rt o state version))
  | .getVersions state => (o, .versions (GetVersions rt o state))

/-- The instance after a sequence of method calls. -/
def Local.calls (rt : Runtime) (o : Local) : List Call → Local
  | [] => o
  | c :: rest => Local.calls rt (o.call rt c).1 rest

/-! ## Sample inputs -/

/-- A regular file named `p`, reported without error. -/
def fileVisit (p : String) : Visit := ⟨p, ⟨false⟩, none⟩

/-- A directory named `p`, reported without error. -/
def dirVisit (p : String) : Visit := ⟨p, ⟨true⟩, none⟩

/-- An entry named `p` for which the walker reports the error `e`. -/
def failedVisit (p : String) (e : Error) : Visit := ⟨p, ⟨false⟩, some e⟩

/-- Go `fs.ErrPermission`. -/
def ErrPermission : Error := ⟨"permission denied"⟩

/-- Go `filepath.ErrBadPattern`. -/
def ErrBadPattern : Error := ⟨"syntax error in pattern"⟩

/-- A matcher that never errors and knows the pattern `*.tfstate` only: a name
matches when it ends in `.tfstate`. -/
def suffixMatch : LocalMatcher := fun pattern name =>
  (decide (pattern = "*.tfstate") && ".tfstate".data.isSuffixOf name.data, none)

/-- A matcher that accepts every name. -/
def anyMatch : LocalMatcher := fun _ _ => (true, none)

/-- An instance whose walker reports a matching regular file and then an entry
with a permission error. -/
def partialLocal : Local :=
  { path := "/r", pattern := "*",
    walkDirFn := fun _ =>
      walkList none [fileVisit "/r/a/terraform.tfstate", failedVisit "/r/d" ErrPermission],
    matchFn := anyMatch }

/-- An instance whose walker visits a directory with a matching name, a state
file and a text file, with a matcher for `*.tfstate`. -/
def sampleLocal : Local :=
  { path := "/r", pattern := "*.tfstate",
    walkDirFn := fun _ =>
      walkList none [dirVisit "/r/x.tfstate", fileVisit "/r/a/terraform.tfstate",
        fileVisit "/r/b/readme.txt"],
    matchFn := suffixMatch }

/-- An instance whose matcher rejects the name `bad.tfstate` as malformed input
and accepts every other name. -/
def badMatchLocal : Local :=
  { path := "/r", pattern := "*.tfstate",
    walkDirFn := fun _ =>
      walkList none [fileVisit "/r/a.tfstate", fileVisit "/r/bad.tfstate",
        fileVisit "/r/c.tfstate"],
    matchFn := fun _ name =>
      if name = "bad.tfstate" then (true, some ErrBadPattern) else (true, none) }

/-- A runtime with one readable state file, one file the decoder rejects, and
nothing else. -/
def sampleRuntime : Runtime :=
  { WalkDir := fun _ => .done none,
    Match := anyMatch,
    Open := fun p =>
      if p = "/r/terraform.tfstate" then .ok ⟨"state-v4"⟩
      else if p = "/r/garbage" then .ok ⟨"garbage"⟩
      else .error ⟨"no such file"⟩,
    Read := fun f =>
      if f.content = "garbage" then (none, some ⟨"unsupported format"⟩)
      else (some ⟨f.content⟩, none),
    Stat := fun p =>
      if p = "/r/terraform.tfstate" then .ok ⟨1700000000⟩ else .error ⟨"no such file"⟩ }

/-- An instance whose walker visits directories only, all with matching names. -/
def dirsLocal : Local :=
  { path := "/r", pattern := "*",
    walkDirFn := fun _ => walkList none [dirVisit "/r", dirVisit "/r/a.tfstate"],
    matchFn := anyMatch }

/-- An instance whose walker visits directories only and pays no attention to
what the callback returns. -/
def deafDirsLocal : Local :=
  { path := "/r", pattern := "*",
    walkDirFn := fun _ =>
      .visit (dirVisit "/r") fun _ =>
        .visit (dirVisit "/r/a.tfstate") fun _ => .done none,
    matchFn := anyMatch }

/-- An instance whose walker keeps walking after the callback failed: it reports
an entry with an error, ignores what the callback returns, then reports a
regular file and returns nil. -/
def stubbornLocal : Local :=
  { path := "/r", pattern := "*",
    walkDirFn := fun _ =>
      .visit (failedVisit "/r/locked.tfstate" ErrPermission) fun _ =>
        .visit (fileVisit "/r/b.tfstate") fun _ => .done none,
    matchFn := anyMatch }

/-- A runtime in which no file can be opened or stat-ed. -/
def lockedRuntime : Runtime :=
  { WalkDir := fun _ => .done none,
    Match := anyMatch,
    Open := fun _ => .error ErrPermission,
    Read := fun f => (some ⟨f.content⟩, none),
    Stat := fun _ => .error ErrPermission }

/-! ## Discovery: lemmas on the callback and on walkers -/

theorem walkFn_fst (o : Local) (v : Visit) (s : List String) :
    (GetStates.walkFn o v s).1 = s ++ (if GetStates.keeps o v then [v.path] else []) := by
  obtain ⟨p, d, err⟩ := v
  cases err with
  | some e => simp [GetStates.walkFn, GetStates.keeps]
  | none =>
    cases hd : d.IsDir with
    | true => simp [GetStates.walkFn, GetStates.keeps, hd]
    | false =>
      rcases hm : o.matchFn o.pattern (Base p) with ⟨matched, merr⟩
      cases merr with
      | some e => simp [GetStates.walkFn, GetStates.keeps, hd, hm]
      | none => cases matched <;> simp [GetStates.walkFn, GetStates.keeps, hd, hm]

theorem walkFn_snd (o : Local) (v : Visit) (s t : List String) :
    (GetStates.walkFn o v s).2 = (GetStates.walkFn o v t).2 := by
  obtain ⟨p, d, err⟩ := v
  cases err with
  | some e => simp [GetStates.walkFn]
  | none =>
    cases hd : d.IsDir with
    | true => simp [GetStates.walkFn, hd]
    | false =>
      rcases hm : o.matchFn o.pattern (Base p) with ⟨matched, merr⟩
      cases merr with
      | some e => simp [GetStates.walkFn, hd, hm]
      | none => cases matched <;> simp [GetStates.walkFn, hd, hm]

/-- When the callback returns nil on an entry, the entry is kept exactly when it
is not a directory and the matcher says yes. -/
theorem keeps_of_ok (o : Local) (v : Visit) (s : List String)
    (h : (GetStates.walkFn o v s).2 = none) :
    GetStates.keeps o v = (!v.info.IsDir && (o.matchFn o.pattern (Base v.path)).1) := by
  obtain ⟨p, d, err⟩ := v
  cases err with
  | some e => simp [GetStates.walkFn] at h
  | none =>
    cases hd : d.IsDir with
    | true => simp [GetStates.keeps, hd]
    | false =>
      rcases hm : o.matchFn o.pattern (Base p) with ⟨matched, merr⟩
      cases merr with
      | some e => simp [GetStates.walkFn, hd, hm] at h
      | none => simp [GetStates.keeps, hd, hm]

/-- The slice a run ends with is the slice it starts with followed by the kept
entries among those visited. -/
theorem run_fst (o : Local) (w : Walk) (s : List String) :
    (Walk.run (GetStates.walkFn o) w s).1 =
      s ++ ((Walk.visited (GetStates.walkFn o) w s).filter (GetStates.keeps o)).map Visit.path := by
  induction w generalizing s with
  | done r => simp [Walk.run, Walk.visited]
  | visit v next ih =>
    simp only [Walk.run, Walk.visited]
    rw [ih, walkFn_fst]
    by_cases hk : GetStates.keeps o v = true <;> simp [List.filter_cons, hk]

/-- A walker that stops at the first failing call: entries on which the callback
returns nil are passed over, their kept paths being appended. -/
theorem run_walkList_pass (o : Local) (fin : Option Error) (pre rest : List Visit)
    (s : List String) (hpre : ∀ u ∈ pre, ∀ t, (GetStates.walkFn o u t).2 = none) :
    Walk.run (GetStates.walkFn o) (walkList fin (pre ++ rest)) s =
      Walk.run (GetStates.walkFn o) (walkList fin rest)
        (s ++ (pre.filter
          (fun u => !u.info.IsDir && (o.matchFn o.pattern (Base u.path)).1)).map Visit.path) := by
  induction pre generalizing s with
  | nil => simp
  | cons u pre ih =>
    have hu := hpre u (List.mem_cons_self _ _) s
    have hk := keeps_of_ok o u s hu
    rw [List.cons_append]
    simp only [walkList, Walk.run, hu]
    rw [ih _ (fun x hx => hpre x (List.mem_cons_of_mem _ hx)), walkFn_fst, hk]
    cases hb : (!u.info.IsDir && (o.matchFn o.pattern (Base u.path)).1) <;>
      simp [List.filter_cons, hb]

/-- A walker that stops at the first failing call returns the error of that call
and the slice as that call left it. -/
theorem run_walkList_fail (o : Local) (fin : Option Error) (v : Visit) (post : List Visit)
    (s : List String) (e : Error) (hv : (GetStates.walkFn o v s).2 = some e) :
    Walk.run (GetStates.walkFn o) (walkList fin (v :: post)) s =
      ((GetStates.walkFn o v s).1, some e) := by
  simp [walkList, Walk.run, hv]

/-! ## Discovery: `GetStates` -/

/-- C1, as stated, fails: the walker of `partialLocal` reports a permission error
for its second entry, and `GetStates` still returns the path of the first entry
together with that error. -/
theorem GetStates_partialLocal_not_empty :
    failedVisit "/r/d" ErrPermission ∈ GetStates.visited partialLocal ∧
      (failedVisit "/r/d" ErrPermission).err ≠ none ∧
      GetStates partialLocal = (["/r/a/terraform.tfstate"], some ErrPermission) ∧
      (GetStates partialLocal).1 ≠ [] := by
  decide

/-- C1, amended: for every walker and matcher, an entry the walker reports with
a non-nil error adds nothing to the result, and the result is not emptied:
`GetStates` returns, in visit order, the paths of the other visited entries that
were reported without error, are not directories and were matched without a
matcher error. -/
theorem GetStates_walk_error_keeps_others (o : Local) (pre post : List Visit) (v : Visit)
    (hvis : GetStates.visited o = pre ++ v :: post) (hv : v.err ≠ none) :
    (GetStates o).1 =
      ((pre ++ post).filter (fun u => u.err.isNone && !u.info.IsDir &&
        (o.matchFn o.pattern (Base u.path)).2.isNone &&
        (o.matchFn o.pattern (Base u.path)).1)).map Visit.path := by
  have hk : GetStates.keeps o v = false := by
    cases he : v.err with
    | none => exact absurd he hv
    | some e => simp [GetStates.keeps, he]
  have h := run_fst o (o.walkDirFn o.path) []
  simp only [GetStates, GetStates.visited] at hvis ⊢
  rw [h, hvis]
  simp only [List.nil_append, List.filter_append, List.filter_cons, hk]
  rfl

theorem GetStates_walk_error_keeps_others_witness :
    (GetStates partialLocal).1 = ["/r/a/terraform.tfstate"] := by
  have h := GetStates_walk_error_keeps_others partialLocal
    [fileVisit "/r/a/terraform.tfstate"] [] (failedVisit "/r/d" ErrPermission)
    (by decide) (by decide)
  rw [h]
  decide

/-- C2: when the walker hands over the entries `vs` in order, none with an entry
error, and returns the first non-nil result of the callback, and the matcher
never errors, `GetStates` returns a nil error and, in visit order, the full
paths of exactly those entries that are not directories and whose base name the
matcher accepts for the pattern of the instance. -/
theorem GetStates_lists_matches (o : Local) (vs : List Visit)
    (hwalk : o.walkDirFn o.path = walkList none vs)
    (hent : ∀ v ∈ vs, v.err = none)
    (hmatch : ∀ pattern name, (o.matchFn pattern name).2 = none) :
    GetStates o =
      ((vs.filter (fun v => !v.info.IsDir &&
        (o.matchFn o.pattern (Base v.path)).1)).map Visit.path, none) := by
  have hpass : ∀ u ∈ vs, ∀ t, (GetStates.walkFn o u t).2 = none := by
    intro u hu t
    have he := hent u hu
    have hm := hmatch o.pattern (Base u.path)
    obtain ⟨p, d, err⟩ := u
    simp only at he hm
    subst he
    rcases hr : o.matchFn o.pattern (Base p) with ⟨matched, merr⟩
    rw [hr] at hm
    simp only at hm
    subst hm
    cases hd : d.IsDir <;> cases matched <;> simp [GetStates.walkFn, hd, hr]
  have h := run_walkList_pass o none vs [] [] hpass
  rw [List.append_nil] at h
  rw [GetStates, hwalk, h]
  simp [walkList, Walk.run]

theorem GetStates_lists_matches_witness :
    GetStates sampleLocal = (["/r/a/terraform.tfstate"], none) := by
  have h := GetStates_lists_matches sampleLocal
    [dirVisit "/r/x.tfstate", fileVisit "/r/a/terraform.tfstate", fileVisit "/r/b/readme.txt"]
    rfl (by decide)
    (by intro pattern name; rfl)
  rw [h]
  decide

/-- C3: for a walker that returns the first non-nil result of its callback, if
the walker reports the error `e` for an entry and the callback returned nil on
every earlier entry, `GetStates` returns exactly `e` as its error. -/
theorem GetStates_returns_walk_error (o : Local) (fin : Option Error)
    (pre post : List Visit) (v : Visit) (e : Error)
    (hwalk : o.walkDirFn o.path = walkList fin (pre ++ v :: post))
    (hpre : ∀ u ∈ pre, ∀ s, (GetStates.walkFn o u s).2 = none)
    (hv : v.err = some e) :
    (GetStates o).2 = some e := by
  rw [GetStates, hwalk, run_walkList_pass o fin pre (v :: post) [] hpre]
  rw [run_walkList_fail o fin v post _ e (by simp [GetStates.walkFn, hv])]

/-- C4: for a walker that returns the first non-nil result of its callback, if
the matcher returns the error `e` for a non-directory entry reported without
error, and the callback returned nil on every earlier entry, `GetStates` returns
exactly `e` as its error and the entry is not appended: the result holds the
paths accepted among the earlier entries and nothing else. -/
theorem GetStates_returns_match_error (o : Local) (fin : Option Error)
    (pre post : List Visit) (v : Visit) (e : Error)
    (hwalk : o.walkDirFn o.path = walkList fin (pre ++ v :: post))
    (hpre : ∀ u ∈ pre, ∀ s, (GetStates.walkFn o u s).2 = none)
    (hverr : v.err = none) (hdir : v.info.IsDir = false)
    (hm : (o.matchFn o.pattern (Base v.path)).2 = some e) :
    (GetStates o).2 = some e ∧
      (GetStates o).1 =
        (pre.filter (fun u => !u.info.IsDir &&
          (o.matchFn o.pattern (Base u.path)).1)).map Visit.path := by
  have hcall : ∀ s, GetStates.walkFn o v s = (s, some e) := by
    intro s
    rcases hr : o.matchFn o.pattern (Base v.path) with ⟨matched, merr⟩
    rw [hr] at hm
    simp only at hm
    subst hm
    simp [GetStates.walkFn, hverr, hdir, hr]
  rw [GetStates, hwalk, run_walkList_pass o fin pre (v :: post) [] hpre]
  rw [run_walkList_fail o fin v post _ e (by rw [hcall])]
  rw [hcall]
  simp

theorem GetStates_returns_walk_error_witness :
    (GetStates partialLocal).2 = some ErrPermission :=
  GetStates_returns_walk_error partialLocal none
    [fileVisit "/r/a/terraform.tfstate"] [] (failedVisit "/r/d" ErrPermission) ErrPermission
    rfl (by intro u hu s; simp at hu; subst hu; rfl) rfl

theorem GetStates_returns_match_error_witness :
    (GetStates badMatchLocal).2 = some ErrBadPattern ∧
      (GetStates badMatchLocal).1 = ["/r/a.tfstate"] := by
  have h := GetStates_returns_match_error badMatchLocal none
    [fileVisit "/r/a.tfstate"] [fileVisit "/r/c.tfstate"] (fileVisit "/r/bad.tfstate")
    ErrBadPattern rfl (by intro u hu s; simp at hu; subst hu; rfl) rfl rfl (by decide)
  refine ⟨h.1, ?_⟩
  rw [h.2]
  decide

/-! ## Construction: `NewLocal` and `NewLocalCollection` -/

theorem NewLocal_snd_ne_none (rt : Runtime) (c : LocalConfig)
    (h : c.StatePath = "" ∨ c.StateFile = "") : (NewLocal rt c).2 ≠ none := by
  unfold NewLocal
  by_cases hp : c.StatePath = ""
  · simp [hp]
  · rcases h with h | h
    · exact absurd h hp
    · simp [hp, h]

theorem NewLocal_of_valid (rt : Runtime) (c : LocalConfig)
    (hp : c.StatePath ≠ "") (hf : c.StateFile ≠ "") :
    NewLocal rt c =
      (some { path := c.StatePath, pattern := c.StateFile,
              walkDirFn := rt.WalkDir, matchFn := rt.Match }, none) := by
  simp [NewLocal, hp, hf]

/-- C5: `NewLocal` returns an error exactly when the state path or the state file
of the config is empty, and the instance it returns with an error is nil. -/
theorem NewLocal_error_iff (rt : Runtime) (c : LocalConfig) :
    ((NewLocal rt c).2 ≠ none ↔ (c.StatePath = "" ∨ c.StateFile = "")) ∧
      ((NewLocal rt c).2 ≠ none → (NewLocal rt c).1 = none) := by
  by_cases hp : c.StatePath = ""
  · simp [NewLocal, hp]
  · by_cases hf : c.StateFile = ""
    · simp [NewLocal, hp, hf]
    · simp [NewLocal, hp, hf]

theorem NewLocal_error_iff_witness :
    (NewLocal sampleRuntime ⟨"/path/to/key", ""⟩).2 ≠ none ∧
      (NewLocal sampleRuntime ⟨"/path/to/key", ""⟩).1 = none :=
  have h := NewLocal_error_iff sampleRuntime ⟨"/path/to/key", ""⟩
  ⟨h.1.mpr (Or.inr rfl), h.2 (h.1.mpr (Or.inr rfl))⟩

/-- C6: for a config whose state path and state file are both non-empty,
`NewLocal` returns a nil error and a non-nil instance whose path is the state
path and whose pattern is the state file of the config, bound to the default
walker and matcher. -/
theorem NewLocal_valid (rt : Runtime) (c : LocalConfig)
    (hp : c.StatePath ≠ "") (hf : c.StateFile ≠ "") :
    (NewLocal rt c).2 = none ∧
      ∃ inst, (NewLocal rt c).1 = some inst ∧
        inst.path = c.StatePath ∧ inst.pattern = c.StateFile ∧
        inst.walkDirFn = rt.WalkDir ∧ inst.matchFn = rt.Match := by
  rw [NewLocal_of_valid rt c hp hf]
  exact ⟨rfl, _, rfl, rfl, rfl, rfl, rfl⟩

theorem NewLocal_valid_witness :
    (NewLocal sampleRuntime ⟨"/path/to/key", "terraform.tfstate"⟩).2 = none ∧
      ∃ inst, (NewLocal sampleRuntime ⟨"/path/to/key", "terraform.tfstate"⟩).1 = some inst ∧
        inst.path = "/path/to/key" ∧ inst.pattern = "terraform.tfstate" ∧
        inst.walkDirFn = sampleRuntime.WalkDir ∧ inst.matchFn = sampleRuntime.Match :=
  NewLocal_valid sampleRuntime ⟨"/path/to/key", "terraform.tfstate"⟩ (by decide) (by decide)

theorem loop_of_valid (rt : Runtime) (cs : List LocalConfig) (acc : List (Option Local))
    (hvalid : ∀ x ∈ cs, x.StatePath ≠ "" ∧ x.StateFile ≠ "") :
    NewLocalCollection.loop rt cs acc =
      (acc ++ cs.map (fun x => some { path := x.StatePath, pattern := x.StateFile,
                                      walkDirFn := rt.WalkDir, matchFn := rt.Match }), none) := by
  induction cs generalizing acc with
  | nil => simp [NewLocalCollection.loop]
  | cons x cs ih =>
    have hx := hvalid x (List.mem_cons_self _ _)
    simp only [NewLocalCollection.loop, NewLocal_of_valid rt x hx.1 hx.2]
    rw [ih _ (fun y hy => hvalid y (List.mem_cons_of_mem _ hy))]
    simp

theorem loop_of_invalid (rt : Runtime) (bad : LocalConfig) (rest : List LocalConfig)
    (acc : List (Option Local)) (hbad : bad.StatePath = "" ∨ bad.StateFile = "") :
    NewLocalCollection.loop rt (bad :: rest) acc = ([], (NewLocal rt bad).2) := by
  have hne := NewLocal_snd_ne_none rt bad hbad
  rcases hr : NewLocal rt bad with ⟨inst, err⟩
  rw [hr] at hne
  cases err with
  | none => exact absurd rfl hne
  | some e => simp [NewLocalCollection.loop, hr]

/-- C7: for a list of configs that are all valid, `NewLocalCollection` returns a
nil error and as many instances as there are configs, the i-th instance being
non-nil and having the path and pattern of the i-th config. -/
theorem NewLocalCollection_valid (rt : Runtime) (c : Config)
    (hvalid : ∀ x ∈ c.Local, x.StatePath ≠ "" ∧ x.StateFile ≠ "") :
    (NewLocalCollection rt c).2 = none ∧
      (NewLocalCollection rt c).1.length = c.Local.length ∧
      (NewLocalCollection rt c).1 =
        c.Local.map (fun x => some { path := x.StatePath, pattern := x.StateFile,
                                     walkDirFn := rt.WalkDir, matchFn := rt.Match }) := by
  rw [NewLocalCollection, loop_of_valid rt c.Local [] hvalid]
  simp

theorem NewLocalCollection_valid_witness :
    (NewLocalCollection sampleRuntime ⟨[⟨"/a", "*.tfstate"⟩, ⟨"/b", "terraform.tfstate"⟩]⟩).2
        = none ∧
      (NewLocalCollection sampleRuntime
        ⟨[⟨"/a", "*.tfstate"⟩, ⟨"/b", "terraform.tfstate"⟩]⟩).1.length = 2 :=
  have h := NewLocalCollection_valid sampleRuntime
    ⟨[⟨"/a", "*.tfstate"⟩, ⟨"/b", "terraform.tfstate"⟩]⟩ (by decide)
  ⟨h.1, h.2.1⟩

/-- C8: for a list of configs of which at least one is invalid,
`NewLocalCollection` returns no instance and the error `NewLocal` returns for the
first invalid config of the list, whatever precedes or follows it. -/
theorem NewLocalCollection_first_invalid (rt : Runtime) (c : Config)
    (hinv : ∃ x ∈ c.Local, x.StatePath = "" ∨ x.StateFile = "") :
    ∃ pre bad post, c.Local = pre ++ bad :: post ∧
      (∀ x ∈ pre, x.StatePath ≠ "" ∧ x.StateFile ≠ "") ∧
      (bad.StatePath = "" ∨ bad.StateFile = "") ∧
      (NewLocal rt bad).2 ≠ none ∧
      NewLocalCollection rt c = ([], (NewLocal rt bad).2) := by
  have key : ∀ (cs : List LocalConfig) (acc : List (Option Local)),
      (∃ x ∈ cs, x.StatePath = "" ∨ x.StateFile = "") →
      ∃ pre bad post, cs = pre ++ bad :: post ∧
        (∀ x ∈ pre, x.StatePath ≠ "" ∧ x.StateFile ≠ "") ∧
        (bad.StatePath = "" ∨ bad.StateFile = "") ∧
        (NewLocal rt bad).2 ≠ none ∧
        NewLocalCollection.loop rt cs acc = ([], (NewLocal rt bad).2) := by
    intro cs
    induction cs with
    | nil => intro acc h; obtain ⟨x, hx, _⟩ := h; simp at hx
    | cons y cs ih =>
      intro acc h
      by_cases hy : y.StatePath = "" ∨ y.StateFile = ""
      · exact ⟨[], y, cs, rfl, by simp, hy, NewLocal_snd_ne_none rt y hy,
          loop_of_invalid rt y cs acc hy⟩
      · have hy2 : y.StatePath ≠ "" ∧ y.StateFile ≠ "" := by
          constructor
          · intro h1; exact hy (Or.inl h1)
          · intro h1; exact hy (Or.inr h1)
        have hrest : ∃ x ∈ cs, x.StatePath = "" ∨ x.StateFile = "" := by
          obtain ⟨x, hx, hxi⟩ := h
          rcases List.mem_cons.mp hx with rfl | hx
          · exact absurd hxi hy
          · exact ⟨x, hx, hxi⟩
        obtain ⟨pre, bad, post, hsplit, hpre, hbad, hne, hloop⟩ :=
          ih (acc ++ [some { path := y.StatePath, pattern := y.StateFile,
                             walkDirFn := rt.WalkDir, matchFn := rt.Match }]) hrest
        refine ⟨y :: pre, bad, post, by simp [hsplit], ?_, hbad, hne, ?_⟩
        · intro x hx
          rcases List.mem_cons.mp hx with rfl | hx
          · exact hy2
          · exact hpre x hx
        · simp only [NewLocalCollection.loop, NewLocal_of_valid rt y hy2.1 hy2.2]
          exact hloop
  exact key c.Local [] hinv

theorem NewLocalCollection_first_invalid_witness :
    ∃ pre bad post,
      [(⟨"/a", "*.tfstate"⟩ : LocalConfig), ⟨"/b", ""⟩, ⟨"", "x"⟩, ⟨"/c", "y"⟩]
        = pre ++ bad :: post ∧
      (∀ x ∈ pre, x.StatePath ≠ "" ∧ x.StateFile ≠ "") ∧
      (bad.StatePath = "" ∨ bad.StateFile = "") ∧
      (NewLocal sampleRuntime bad).2 ≠ none ∧
      NewLocalCollection sampleRuntime
        ⟨[⟨"/a", "*.tfstate"⟩, ⟨"/b", ""⟩, ⟨"", "x"⟩, ⟨"/c", "y"⟩]⟩
        = ([], (NewLocal sampleRuntime bad).2) :=
  NewLocalCollection_first_invalid sampleRuntime
    ⟨[⟨"/a", "*.tfstate"⟩, ⟨"/b", ""⟩, ⟨"", "x"⟩, ⟨"/c", "y"⟩]⟩
    ⟨⟨"/b", ""⟩, by decide, Or.inr rfl⟩

/-! ## Retrieval and versions: `GetState` and `GetVersions` -/

/-- C9: `GetState` fails with the unreadable-state error carrying the path when
the path cannot be opened, fails with the unparseable-state error carrying the
version hint when the decoder yields no document, and otherwise returns the
decoded document with a nil error; whenever it fails the document is nil. -/
theorem GetState_cases (rt : Runtime) (o : Local) (state version : String) :
    (∀ err, rt.Open state = .error err →
        GetState rt o state version =
          (none, some ⟨"unable to read the statefile " ++ state⟩)) ∧
      (∀ fh, rt.Open state = .ok fh → (rt.Read fh).1 = none →
        GetState rt o state version =
          (none, some ⟨"unable to parse the statefile version " ++ version⟩)) ∧
      (∀ fh sf, rt.Open state = .ok fh → (rt.Read fh).1 = some sf →
        GetState rt o state version = (some sf, none)) ∧
      ((GetState rt o state version).2 ≠ none → (GetState rt o state version).1 = none) := by
  refine ⟨?_, ?_, ?_, ?_⟩
  · intro err h
    simp [GetState, h, Errorf1]
  · intro fh h hr
    simp [GetState, h, hr, Errorf1]
  · intro fh sf h hr
    simp [GetState, h, hr]
  · intro hne
    unfold GetState at hne ⊢
    cases h : rt.Open state with
    | error err => simp
    | ok fh =>
      cases hr : (rt.Read fh).1 with
      | none => simp [hr]
      | some sf => simp [h, hr] at hne

theorem GetState_cases_witness :
    GetState sampleRuntime partialLocal "/r/missing" "v1" =
        (none, some ⟨"unable to read the statefile /r/missing"⟩) ∧
      GetState sampleRuntime partialLocal "/r/garbage" "v1" =
        (none, some ⟨"unable to parse the statefile version v1"⟩) ∧
      GetState sampleRuntime partialLocal "/r/terraform.tfstate" "v1" =
        (some ⟨"state-v4"⟩, none) :=
  ⟨(GetState_cases sampleRuntime partialLocal "/r/missing" "v1").1 ⟨"no such file"⟩ rfl,
   (GetState_cases sampleRuntime partialLocal "/r/garbage" "v1").2.1 ⟨"garbage"⟩ rfl rfl,
   (GetState_cases sampleRuntime partialLocal "/r/terraform.tfstate" "v1").2.2.1
     ⟨"state-v4"⟩ ⟨"state-v4"⟩ rfl rfl⟩

/-- C10: for a path that can be stat-ed, `GetVersions` returns a nil error and
exactly one record, whose ID is the path and whose modification time is the one
reported by stat; for a path that cannot be stat-ed it returns an error and no
record. -/
theorem GetVersions_cases (rt : Runtime) (o : Local) (state : String) :
    (∀ info, rt.Stat state = .ok info →
        GetVersions rt o state = ([{ ID := state, LastModified := info.ModTime }], none)) ∧
      (∀ err, rt.Stat state = .error err →
        (GetVersions rt o state).2 ≠ none ∧ (GetVersions rt o state).1 = []) := by
  constructor
  · intro info h
    simp [GetVersions, h]
  · intro err h
    simp [GetVersions, h]

theorem GetVersions_cases_witness :
    GetVersions sampleRuntime partialLocal "/r/terraform.tfstate" =
        ([{ ID := "/r/terraform.tfstate", LastModified := 1700000000 }], none) ∧
      (GetVersions sampleRuntime partialLocal "/r/missing").2 ≠ none ∧
      (GetVersions sampleRuntime partialLocal "/r/missing").1 = [] :=
  ⟨(GetVersions_cases sampleRuntime partialLocal "/r/terraform.tfstate").1 ⟨1700000000⟩ rfl,
   (GetVersions_cases sampleRuntime partialLocal "/r/missing").2 ⟨"no such file"⟩ rfl⟩

/-! ## Version hint and error texts of `GetState` -/

theorem read_text_ne_parse_text (p v : String) :
    "unable to read the statefile " ++ p ≠ "unable to parse the statefile version " ++ v := by
  intro h
  have hd := congrArg (fun t => t.data.take 11) h
  simp only [String.data_append] at hd
  rw [List.take_append_of_le_length (by decide), List.take_append_of_le_length (by decide)] at hd
  exact absurd hd (by decide)

/-- C11: the version hint does not select content. For every path and every two
hints, `GetState` returns the same document, succeeds for one hint exactly when
it succeeds for the other, and the two results are equal unless both are the
unparseable-state error, each carrying its own hint. -/
theorem GetState_version_independent (rt : Runtime) (o : Local) (state v1 v2 : String) :
    (GetState rt o state v1).1 = (GetState rt o state v2).1 ∧
      ((GetState rt o state v1).2 = none ↔ (GetState rt o state v2).2 = none) ∧
      (GetState rt o state v1 = GetState rt o state v2 ∨
        ((GetState rt o state v1).2 =
            some ⟨"unable to parse the statefile version " ++ v1⟩ ∧
          (GetState rt o state v2).2 =
            some ⟨"unable to parse the statefile version " ++ v2⟩)) := by
  cases hopen : rt.Open state with
  | error err => simp [GetState, hopen]
  | ok fh =>
    cases hread : (rt.Read fh).1 with
    | none => simp [GetState, hopen, hread, Errorf1]
    | some sf => simp [GetState, hopen, hread]

theorem GetState_version_independent_witness :
    (GetState sampleRuntime sampleLocal "/r/terraform.tfstate" "v2").2 = none ∧
      (GetState sampleRuntime sampleLocal "/r/terraform.tfstate" "v1").1 =
        (GetState sampleRuntime sampleLocal "/r/terraform.tfstate" "v2").1 :=
  have h := GetState_version_independent sampleRuntime sampleLocal
    "/r/terraform.tfstate" "v1" "v2"
  ⟨h.2.1.mp rfl, h.1⟩

/-- C15: the unreadable-state error and the unparseable-state error of `GetState`
differ for every path and every version hint, empty or not: the error returned
when the file cannot be opened is never the error returned when the decoder
yields no document, also when the two calls are given different paths and
hints. -/
theorem GetState_errors_distinct (rt1 rt2 : Runtime) (o : Local) (p v p2 v2 : String)
    (err : Error) (fh : File)
    (hopen : rt1.Open p = .error err)
    (hok : rt2.Open p2 = .ok fh) (hread : (rt2.Read fh).1 = none) :
    (GetState rt1 o p v).2 ≠ none ∧ (GetState rt2 o p2 v2).2 ≠ none ∧
      (GetState rt1 o p v).2 ≠ (GetState rt2 o p2 v2).2 := by
  have hne := read_text_ne_parse_text p v2
  simp [GetState, hopen, hok, hread, Errorf1, hne]

theorem GetState_errors_distinct_witness :
    (GetState lockedRuntime sampleLocal "/r/garbage" "").2 ≠
      (GetState sampleRuntime sampleLocal "/r/garbage" "").2 :=
  (GetState_errors_distinct lockedRuntime sampleRuntime sampleLocal
    "/r/garbage" "" "/r/garbage" "" ErrPermission ⟨"garbage"⟩ rfl rfl rfl).2.2

/-! ## Discovery: empty results, soundness, repeated calls -/

/-- A run in which the callback returns nil on every visited entry ends with the
result the walker reports of its own accord. -/
theorem run_snd_of_pass {σ : Type} (fn : Visit → σ → σ × Option Error) (w : Walk) (s : σ)
    (hpass : ∀ v ∈ Walk.visited fn w s, ∀ t, (fn v t).2 = none) :
    (Walk.run fn w s).2 = Walk.quietResult w := by
  induction w generalizing s with
  | done r => rfl
  | visit v next ih =>
    have hv : (fn v s).2 = none := hpass v (by simp [Walk.visited]) s
    simp only [Walk.run, Walk.quietResult, hv]
    apply ih
    intro u hu t
    apply hpass u _ t
    simp only [Walk.visited, hv]
    exact List.mem_cons_of_mem _ hu

/-- C12: for every walker that reports no error, neither for an entry nor of its
own accord, `GetStates` returns an empty sequence and a nil error when the walker
visits no entry, when it visits directories only, or when the matcher accepts no
name (without error). The walker need not stop at a failing callback nor hand
its result back. -/
theorem GetStates_empty (o : Local)
    (hret : Walk.quietResult (o.walkDirFn o.path) = none)
    (h : GetStates.visited o = [] ∨
      (∀ v ∈ GetStates.visited o, v.err = none ∧ v.info.IsDir = true) ∨
      ((∀ v ∈ GetStates.visited o, v.err = none) ∧
        ∀ name, o.matchFn o.pattern name = (false, none))) :
    GetStates o = ([], none) := by
  have hpass : ∀ u ∈ GetStates.visited o, ∀ t, (GetStates.walkFn o u t).2 = none := by
    intro u hu t
    rcases h with h | h | h
    · rw [h] at hu; simp at hu
    · obtain ⟨he, hd⟩ := h u hu
      simp [GetStates.walkFn, he, hd]
    · have he := h.1 u hu
      have hm := h.2 (Base u.path)
      cases hd : u.info.IsDir <;> simp [GetStates.walkFn, he, hd, hm]
  have hnone : (GetStates.visited o).filter (GetStates.keeps o) = [] := by
    rw [List.filter_eq_nil_iff]
    intro u hu
    rcases h with h | h | h
    · rw [h] at hu; simp at hu
    · simp [GetStates.keeps, (h u hu).2]
    · simp [GetStates.keeps, h.2 (Base u.path)]
  have hfst : (GetStates o).1 = [] := by
    have hrun := run_fst o (o.walkDirFn o.path) []
    simp only [GetStates.visited] at hnone
    rw [hnone] at hrun
    simpa [GetStates] using hrun
  have hsnd : (GetStates o).2 = none := by
    rw [GetStates, run_snd_of_pass (GetStates.walkFn o) (o.walkDirFn o.path) [] hpass]
    exact hret
  exact Prod.ext hfst hsnd

theorem GetStates_empty_witness :
    Walk.quietResult (deafDirsLocal.walkDirFn deafDirsLocal.path) = none ∧
      (∀ v ∈ GetStates.visited deafDirsLocal, v.err = none ∧ v.info.IsDir = true) ∧
      GetStates deafDirsLocal = ([], none) :=
  ⟨rfl, by decide, GetStates_empty deafDirsLocal rfl (Or.inr (Or.inl (by decide)))⟩

theorem keeps_iff (o : Local) (v : Visit) :
    GetStates.keeps o v = true ↔
      v.err = none ∧ v.info.IsDir = false ∧
        o.matchFn o.pattern (Base v.path) = (true, none) := by
  rcases hm : o.matchFn o.pattern (Base v.path) with ⟨matched, merr⟩
  cases he : v.err <;> cases hd : v.info.IsDir <;> cases matched <;> cases merr <;>
    simp [GetStates.keeps, he, hd, hm]

/-- The traced callback computes what the callback computes. -/
theorem walkFnTraced_agrees (o : Local) (v : Visit) (s : List String)
    (calls : List (String × String)) :
    (GetStates.walkFnTraced o v (s, calls)).1.1 = (GetStates.walkFn o v s).1 ∧
      (GetStates.walkFnTraced o v (s, calls)).2 = (GetStates.walkFn o v s).2 := by
  obtain ⟨p, d, err⟩ := v
  cases err with
  | some e => simp [GetStates.walkFnTraced, GetStates.walkFn]
  | none =>
    cases hd : d.IsDir with
    | true => simp [GetStates.walkFnTraced, GetStates.walkFn, hd]
    | false =>
      rcases hm : o.matchFn o.pattern (Base p) with ⟨matched, merr⟩
      cases merr with
      | some e => simp [GetStates.walkFnTraced, GetStates.walkFn, hd, hm]
      | none => cases matched <;> simp [GetStates.walkFnTraced, GetStates.walkFn, hd, hm]

/-- C16: for every walker whatsoever, every path `GetStates` returns belongs to
an entry that was handed to the callback with a nil entry error, was not a
directory, and for which the matcher returned `(true, nil)` on the pattern of
the instance and the base name of the path. An entry reported with a non-nil
error is not appended and is not passed to the matcher. -/
theorem GetStates_sound (o : Local) :
    (∀ p ∈ (GetStates o).1, ∃ v ∈ GetStates.visited o,
        v.path = p ∧ v.err = none ∧ v.info.IsDir = false ∧
          o.matchFn o.pattern (Base v.path) = (true, none)) ∧
      (∀ (v : Visit) (e : Error) (s : List String) (calls : List (String × String)),
        v.err = some e →
          GetStates.walkFn o v s = (s, some e) ∧
            GetStates.walkFnTraced o v (s, calls) = ((s, calls), some e)) := by
  constructor
  · intro p hp
    rw [GetStates, run_fst, List.nil_append, List.mem_map] at hp
    obtain ⟨v, hv, hpath⟩ := hp
    rw [List.mem_filter] at hv
    exact ⟨v, hv.1, hpath, (keeps_iff o v).mp hv.2⟩
  · intro v e s calls he
    simp [GetStates.walkFn, GetStates.walkFnTraced, he]

theorem GetStates_sound_witness :
    (∃ v ∈ GetStates.visited stubbornLocal,
        v.path = "/r/b.tfstate" ∧ v.err = none ∧ v.info.IsDir = false ∧
          stubbornLocal.matchFn stubbornLocal.pattern (Base v.path) = (true, none)) ∧
      GetStates.walkFnTraced stubbornLocal (failedVisit "/r/locked.tfstate" ErrPermission)
        ([], []) = (([], []), some ErrPermission) :=
  ⟨(GetStates_sound stubbornLocal).1 "/r/b.tfstate" (by decide),
   ((GetStates_sound stubbornLocal).2 (failedVisit "/r/locked.tfstate" ErrPermission)
     ErrPermission [] [] rfl).2⟩

/-- C13: for every instance, `GetLocks` returns an empty mapping and a nil
error, whatever methods were called on the instance before. -/
theorem GetLocks_empty (rt : Runtime) (o : Local) (before : List Call) :
    GetLocks (Local.calls rt o before) = ([], none) ∧
      ((Local.calls rt o before).call rt .getLocks).2 = .locks ([], none) := by
  exact ⟨rfl, rfl⟩

/-- C14: a `GetStates` call leaves the path, pattern, walker and matcher of the
instance as they were, and a second `GetStates` call returns the same sequence
of paths and the same error as the first: nothing of the first call is carried
into the second. -/
theorem GetStates_idempotent (rt : Runtime) (o : Local) :
    ((o.call rt .getStates).1.call rt .getStates).2 = (o.call rt .getStates).2 ∧
      (o.call rt .getStates).2 = .states (GetStates o) ∧
      (o.call rt .getStates).1.path = o.path ∧
      (o.call rt .getStates).1.pattern = o.pattern ∧
      (o.call rt .getStates).1.walkDirFn = o.walkDirFn ∧
      (o.call rt .getStates).1.matchFn = o.matchFn := by
  exact ⟨rfl, rfl, rfl, rfl, rfl, rfl⟩

/-! ## Order of the checks of `NewLocal` -/

/-- C17: `NewLocal` checks the state path before the state file. With an empty
state path, so in particular when both fields are empty, the error is the
state-path error; with only the state file empty it is the state-file error. -/
theorem NewLocal_checks_path_first (rt : Runtime) (c : LocalConfig) :
    (c.StatePath = "" →
        (NewLocal rt c).2 = some ⟨"state path cannot be empty"⟩) ∧
      (c.StatePath ≠ "" → c.StateFile = "" →
        (NewLocal rt c).2 = some ⟨"state file cannot be empty"⟩) := by
  constructor
  · intro hp
    simp [NewLocal, hp, Errorf0]
  · intro hp hf
    simp [NewLocal, hp, hf, Errorf0]

theorem NewLocal_checks_path_first_witness :
    (NewLocal sampleRuntime ⟨"", ""⟩).2 = some ⟨"state path cannot be empty"⟩ ∧
      (NewLocal sampleRuntime ⟨"/path/to/key", ""⟩).2 =
        some ⟨"state file cannot be empty"⟩ :=
  ⟨(NewLocal_checks_path_first sampleRuntime ⟨"", ""⟩).1 rfl,
   (NewLocal_checks_path_first sampleRuntime ⟨"/path/to/key", ""⟩).2 (by decide) rfl⟩

end State
